import Mathlib

/-!
Shallow embedding of the PoDoFo excerpt consisting of
`src/podofo/main/PdfName.cpp` (PDF name escaping codec and the `PdfName`
value type) and `src/podofo/main/PdfResources.cpp` (the resource table
with its counter-based name allocator), together with proofs of the
specified properties.

Bytes are modelled as `Nat` values (thought of modulo 256; theorems that
need it carry an explicit `< 256` bound, matching the C++ `unsigned char`
range). Fallible operations return `Except PdfErrorCode`.
-/

/-- Error kinds raised by the modelled code, mirroring the
`PdfErrorCode` values used in the two source files. `InternalLogic`
is used only by the fuel-exhaustion branch of the allocation loop,
a branch that is unreachable (the C++ `while` loop always terminates
because distinct counters give distinct candidate keys). -/
inductive PdfErrorCode where
  | InvalidName
  | InvalidEnumValue
  | InternalLogic
deriving DecidableEq

instance {ε α : Type} [DecidableEq ε] [DecidableEq α] : DecidableEq (Except ε α) := by
  intro a b
  cases a <;> cases b <;> first
    | (apply isFalse; intro h; exact Except.noConfusion h)
    | (rename_i x y
       exact match decEq x y with
         | isTrue h => isTrue (by rw [h])
         | isFalse h => isFalse (by intro hc; cases hc; exact h rfl))

/-- Modelled from the spec: `PdfTokenizer::IsWhitespace` is not under
`src/`; per the document syntax a whitespace byte is one of
NUL (0), TAB (9), LF (10), FF (12), CR (13), SPACE (32). -/
def isWhitespace (c : Nat) : Bool :=
  c = 0 || c = 9 || c = 10 || c = 12 || c = 13 || c = 32

/-- Modelled from the spec: `PdfTokenizer::IsDelimiter` is not under
`src/`; per the document syntax the delimiter bytes are
`(` 40, `)` 41, `<` 60, `>` 62, `[` 91, `]` 93, 123, 125, `/` 47, `%` 37. -/
def isDelimiter (c : Nat) : Bool :=
  c = 40 || c = 41 || c = 60 || c = 62 || c = 91 || c = 93 ||
  c = 123 || c = 125 || c = 47 || c = 37

/-- Modelled from the spec: `PdfTokenizer::IsRegular` is not under
`src/`; the spec defines a regular byte as one that is neither a
delimiter nor whitespace. -/
def isRegular (c : Nat) : Bool :=
  !isWhitespace c && !isDelimiter c

/-- Modelled from the spec: `PdfTokenizer::IsPrintable` is not under
`src/`; a printable byte is a visible ASCII character, strictly between
32 and 127. -/
def isPrintable (c : Nat) : Bool :=
  32 < c && c < 127

/-- The table lookup of `hexchr`: the n-th character of
`"0123456789ABCDEF"`, as a byte. Uppercase hex digits. -/
def hexDigit (n : Nat) : Nat :=
  if n < 10 then 48 + n else 55 + n

/-- First pass of `escapeNameTo` (`PdfName.cpp` lines 143-159): scan the
input once, failing on any null byte, and compute the exact number of
output bytes (1 for a byte emitted verbatim, 3 for an escaped one).
`none` models the `InvalidName` exception thrown at the first null. -/
def escapeCount : List Nat → Option Nat
  | [] => some 0
  | ch :: rest =>
    if ch = 0 then
      none
    else
      match escapeCount rest with
      | none => none
      | some n =>
        some ((if isRegular ch && isPrintable ch && ch ≠ 35 then 1 else 3) + n)

/-- Second pass of `escapeNameTo` (`PdfName.cpp` lines 163-179): emit a
regular printable non-`#` byte verbatim, otherwise emit `#` (35) followed
by the two uppercase hex digits of the byte (`hexchr` receives the byte
cast to `unsigned char`, hence the mod 256). -/
def escapeChars : List Nat → List Nat
  | [] => []
  | ch :: rest =>
    if isRegular ch && isPrintable ch && ch ≠ 35 then
      ch :: escapeChars rest
    else
      35 :: hexDigit (ch % 256 / 16) :: hexDigit (ch % 256 % 16) :: escapeChars rest

/-- `escapeNameTo` (`PdfName.cpp` lines 138-180): the counting pass runs
first and raises `InvalidName` on a null byte before any output is
produced; only then is the output generated. -/
def escapeNameTo (l : List Nat) : Except PdfErrorCode (List Nat) :=
  match escapeCount l with
  | none => .error .InvalidName
  | some _ => .ok (escapeChars l)

/-- The hex-digit adjustment of `unescapeName` (`PdfName.cpp` lines
206-207): `hi -= (hi < 65 ? 48 : 55)` on an `unsigned char`, i.e.
subtraction modulo 256. -/
def hexAdjust (c : Nat) : Nat :=
  (c + 256 - (if c < 65 then 48 else 55)) % 256

/-- The byte recombination of `unescapeName` (`PdfName.cpp` line 208):
`(hi << 4) | (low & 0x0F)` stored into an `unsigned char`. Since
`hi <<< 4` has its four low bits clear, the bitwise or is addition. -/
def recombine (hi lo : Nat) : Nat :=
  (hexAdjust hi * 16 ||| hexAdjust lo % 16) % 256

/-- `unescapeName` (`PdfName.cpp` lines 190-218): bytes are copied
verbatim except that a `#` (35) followed by at least two more bytes
consumes those two bytes as hex digits; a `#` with fewer than two bytes
remaining is emitted literally. Never fails. -/
def unescapeName : List Nat → List Nat
  | c :: hi :: lo :: rest =>
    if c = 35 then
      recombine hi lo :: unescapeName rest
    else
      c :: unescapeName (hi :: lo :: rest)
  | c :: rest => c :: unescapeName rest
  | [] => []

/-- UTF-8 encoding of a Unicode code point below 0x800 (one or two
bytes), used by the modelled legacy-charset decoder. -/
def utf8Bytes (cp : Nat) : List Nat :=
  if cp < 128 then [cp] else [192 + cp / 64, 128 + cp % 64]

/-- Modelled from the spec: `PoDoFo::ConvertPdfDocEncodingToUTF8`
(`PdfEncodingPrivate`) is not under `src/`. Per spec section 4.1,
`DecodeLegacyToUtf8(bytes)` maps the fixed legacy single-byte charset to
UTF-8 text and reports whether the result is byte-identical to the input
(true exactly when the input is pure 7-bit ASCII). The concrete high-byte
code-point table is not given by the spec; bytes at or above 128 are
mapped here to a two-byte UTF-8 sequence of a representative non-ASCII
code point, which preserves the properties the spec states. -/
def convertPdfDocEncodingToUTF8 (chars : List Nat) : List Nat × Bool :=
  (chars.flatMap utf8Bytes, chars.all (· < 128))

/-- The heap payload of an owned `PdfName` (`PdfName.h` NameData as used
by `PdfName.cpp`): the raw legacy-charset bytes, the optional cached
UTF-8 string (present only when it differs from the raw bytes), and the
one-shot expansion flag. -/
structure NameData where
  Chars : List Nat
  Utf8String : Option (List Nat)
  IsUtf8Expanded : Bool
deriving DecidableEq

/-- The `PdfName` value type: `m_data` is the owned payload (`none` for
the default-constructed null name and for read-only literal names), and
`m_dataView` is the raw-byte view, equal to `m_data.Chars` whenever
`m_data` is present. -/
structure PdfName where
  m_data : Option NameData
  m_dataView : List Nat
deriving DecidableEq

namespace PdfName

/-- `PdfName::PdfName()`: the canonical null name. -/
def null : PdfName := ⟨none, []⟩

/-- `PdfName::PdfName(const char*, size_t)`: the read-only literal
constructor only sets the data view, never the owned payload. -/
def fromLiteral (view : List Nat) : PdfName := ⟨none, view⟩

/-- `PdfName::FromRaw` via `PdfName::PdfName(charbuff&&)` (`PdfName.cpp`
lines 42-45, 87-90): stores the raw bytes without charset validation,
with no cache and the expansion flag clear. -/
def FromRaw (rawcontent : List Nat) : PdfName :=
  ⟨some ⟨rawcontent, none, false⟩, rawcontent⟩

/-- `PdfName::FromEscaped` (`PdfName.cpp` lines 82-85): unescape, then
store as raw bytes. -/
def FromEscaped (view : List Nat) : PdfName :=
  FromRaw (unescapeName view)

/-- `PdfName::expandUtf8String` (`PdfName.cpp` lines 115-128) as a pure
state transformer on the owned payload: a one-shot, idempotent
computation of the UTF-8 cache, which is stored only when it differs
from the raw bytes. -/
def expandUtf8String (d : NameData) : NameData :=
  if d.IsUtf8Expanded then d
  else
    let converted := convertPdfDocEncodingToUTF8 d.Chars
    ⟨d.Chars, if converted.2 then none else some converted.1, true⟩

/-- `PdfName::GetString` (`PdfName.cpp` lines 220-235): literal names
return their view unchanged; owned names trigger lazy expansion and
return the UTF-8 cache when present, the raw bytes otherwise. -/
def GetString (n : PdfName) : List Nat :=
  match n.m_data with
  | none => n.m_dataView
  | some d =>
    match (expandUtf8String d).Utf8String with
    | none => (expandUtf8String d).Chars
    | some u => u

/-- `PdfName::IsNull` (`PdfName.cpp` lines 237-241). -/
def IsNull (n : PdfName) : Bool :=
  n.m_dataView.length = 0

/-- `PdfName::GetRawData` (`PdfName.cpp` lines 243-246). -/
def GetRawData (n : PdfName) : List Nat :=
  n.m_dataView

/-- `PdfName::operator==(const PdfName&)` (`PdfName.cpp` lines 248-251):
compares the raw-byte views only. -/
def eqName (a b : PdfName) : Bool :=
  a.m_dataView = b.m_dataView

/-- The lexicographic `std::string_view` comparison used by
`PdfName::operator<`: `char_traits<char>` compares bytes as
`unsigned char`, so this is byte-wise lexicographic order. -/
def viewLt : List Nat → List Nat → Bool
  | [], [] => false
  | [], _ :: _ => true
  | _ :: _, [] => false
  | a :: as, b :: bs =>
    if a < b then true
    else if b < a then false
    else viewLt as bs

/-- `PdfName::operator<` (`PdfName.cpp` lines 288-291): compares the
raw-byte views only. -/
def ltName (a b : PdfName) : Bool :=
  viewLt a.m_dataView b.m_dataView

/-- `PdfName::operator==(const string_view&)` (`PdfName.cpp` lines
268-271): compares the display text `GetString()` against the given
text. -/
def eqStringView (a : PdfName) (view : List Nat) : Bool :=
  GetString a = view

end PdfName

/-!
Resource table (`PdfResources.cpp`). Modelled from the spec: the
`PdfDictionary` container and `PdfResourceType` enumeration live in
headers not under `src/`. Per spec section 6, a dictionary supports
`HasKey`, `AddOrReplace` (used by `AddKey` and `AddKeyIndirectSafe`,
last-write-wins), `Find` and `Remove`; it is modelled as an association
list with unique keys maintained by `addOrReplace`. The enumeration is
modelled by its underlying integer: the code indexes
`m_currResourceIds[(unsigned)type - 1]`, so the seven categories are the
values 1..7 in the order of the `switch` statements
(ExtGState, ColorSpace, Pattern, Shading, XObject, Font, Properties);
every other integer is outside the closed enumeration. Resource objects
are identified by a `Nat` object id, standing for the indirect reference
stored by `AddKeyIndirectSafe`.
-/

/-- Dictionary `HasKey`. -/
def hasKey {α : Type} (d : List (String × α)) (k : String) : Bool :=
  d.any (fun p => p.1 = k)

/-- Dictionary `Find`: first binding of the key, if any. -/
def findKey {α : Type} (d : List (String × α)) (k : String) : Option α :=
  match d with
  | [] => none
  | p :: rest => if p.1 = k then some p.2 else findKey rest k

/-- Dictionary `AddKey` / `AddKeyIndirectSafe`: add or replace,
last-write-wins, no collision error. -/
def addOrReplace {α : Type} (d : List (String × α)) (k : String) (v : α) :
    List (String × α) :=
  match d with
  | [] => [(k, v)]
  | p :: rest => if p.1 = k then (k, v) :: rest else p :: addOrReplace rest k v

/-- Dictionary `RemoveKey`: no-op if absent. -/
def removeKey {α : Type} (d : List (String × α)) (k : String) :
    List (String × α) :=
  d.filter (fun p => p.1 ≠ k)

/-- `getResourceTypeName` (`PdfResources.cpp` lines 197-218): the
category-to-tag mapping; any value outside the closed enumeration raises
`InvalidEnumValue`. -/
def getResourceTypeName : Nat → Except PdfErrorCode String
  | 1 => .ok "ExtGState"
  | 2 => .ok "ColorSpace"
  | 3 => .ok "Pattern"
  | 4 => .ok "Shading"
  | 5 => .ok "XObject"
  | 6 => .ok "Font"
  | 7 => .ok "Properties"
  | _ => .error .InvalidEnumValue

/-- `getResourceTypePrefix` (`PdfResources.cpp` lines 220-241): the
category-to-prefix mapping; any value outside the closed enumeration
raises `InvalidEnumValue`. -/
def getResourceTypePfx : Nat → Except PdfErrorCode String
  | 1 => .ok "ExtG"
  | 2 => .ok "CS"
  | 3 => .ok "Ptrn"
  | 4 => .ok "Shd"
  | 5 => .ok "XOb"
  | 6 => .ok "Ft"
  | 7 => .ok "Prop"
  | _ => .error .InvalidEnumValue

/-- The `PdfResources` state: the owning dictionary (category tag to
sub-dictionary of key-to-object-id bindings) and the seven per-category
counters `m_currResourceIds`. -/
structure PdfResources where
  dict : List (String × List (String × Nat))
  m_currResourceIds : List Nat
deriving DecidableEq

namespace PdfResources

/-- `PdfResources::PdfResources(PdfDocument&)` (`PdfResources.cpp` lines
21-23): fresh empty dictionary, `m_currResourceIds` value-initialized to
all zeros. -/
def init : PdfResources :=
  ⟨[], List.replicate 7 0⟩

/-- `PdfResources::getOrCreateDictionary` (`PdfResources.cpp` lines
177-184), read side: the category sub-dictionary, or the fresh empty one
that gets created when absent. -/
def subDict (st : PdfResources) (tname : String) : List (String × Nat) :=
  (findKey st.dict tname).getD []

/-- The allocation loop of `PdfResources::AddResource` (`PdfResources.cpp`
lines 51-60): build `prefix + decimal(currId)`; stop at the first
candidate that is not a key of the sub-dictionary, incrementing the
stored counter on every collision (the stored counter and `currId` stay
equal throughout). Fuel bounds the number of probes; the C++ loop needs
at most one probe per existing key plus one, so the caller passes
`length + 1` and exhaustion is unreachable. Returns the chosen key and
the final counter value. -/
def allocLoop (dict : List (String × Nat)) (pre : String) :
    Nat → Nat → Option (String × Nat)
  | 0, _ => none
  | fuel + 1, currId =>
    let currName := pre ++ Nat.repr currId
    if hasKey dict currName then
      allocLoop dict pre fuel (currId + 1)
    else
      some (currName, currId)

/-- `PdfResources::AddResource(PdfResourceType, const PdfObject&)`
(`PdfResources.cpp` lines 45-65): map the category to its tag (raising
`InvalidEnumValue` before any state is touched), get or create the
sub-dictionary, run the allocation loop from the stored counter, insert
the new key with an indirect reference to the object, and return the
generated name. The state is returned alongside the result; on error it
is the unchanged input state. -/
def AddResource (st : PdfResources) (type : Nat) (obj : Nat) :
    Except PdfErrorCode String × PdfResources :=
  match getResourceTypeName type with
  | .error e => (.error e, st)
  | .ok tname =>
    match getResourceTypePfx type with
    | .error e => (.error e, st)
    | .ok pre =>
      let sub := st.subDict tname
      match allocLoop sub pre (sub.length + 1) (st.m_currResourceIds.getD (type - 1) 0) with
      | none => (.error .InternalLogic, st)
      | some (currName, currId) =>
        (.ok currName,
         ⟨addOrReplace st.dict tname (addOrReplace sub currName obj),
          st.m_currResourceIds.set (type - 1) currId⟩)

/-- `PdfResources::RemoveResource(PdfResourceType, const string_view&)`
(`PdfResources.cpp` lines 82-85, 126-133): map the category (raising on
a bad value), then remove the key from the sub-dictionary when that
sub-dictionary exists; never touches `m_currResourceIds`. -/
def RemoveResource (st : PdfResources) (type : Nat) (key : String) :
    Except PdfErrorCode Unit × PdfResources :=
  match getResourceTypeName type with
  | .error e => (.error e, st)
  | .ok tname =>
    match findKey st.dict tname with
    | none => (.ok (), st)
    | some sub =>
      (.ok (), ⟨addOrReplace st.dict tname (removeKey sub key), st.m_currResourceIds⟩)

/-- `PdfResources::RemoveResources(PdfResourceType)` (`PdfResources.cpp`
lines 87-90, 135-138): map the category, then remove the whole
sub-dictionary; never touches `m_currResourceIds`. -/
def RemoveResources (st : PdfResources) (type : Nat) :
    Except PdfErrorCode Unit × PdfResources :=
  match getResourceTypeName type with
  | .error e => (.error e, st)
  | .ok tname => (.ok (), ⟨removeKey st.dict tname, st.m_currResourceIds⟩)

/-- `PdfResources::GetResource` (`PdfResources.cpp` lines 92-100,
155-163): look up the category sub-dictionary, then the key; `none`
(not an error) when either is absent. -/
def GetResource (st : PdfResources) (type : Nat) (key : String) :
    Except PdfErrorCode (Option Nat) :=
  match getResourceTypeName type with
  | .error e => .error e
  | .ok tname =>
    match findKey st.dict tname with
    | none => .ok none
    | some sub => .ok (findKey sub key)

end PdfResources

/-!
Lemmas about the name codec.
-/

/-- Decoding the two uppercase hex digits emitted by `hexchr` recovers
the encoded value: the `unescapeName` digit arithmetic inverts the
`hexDigit` table on its image. -/
theorem recombine_hexDigit : ∀ x < 16, ∀ y < 16,
    recombine (hexDigit x) (hexDigit y) = 16 * x + y := by decide

/-- A byte other than `#` at the head of the input is copied verbatim by
`unescapeName`, whatever follows. -/
theorem unescapeName_cons_of_ne (c : Nat) (t : List Nat) (h : c ≠ 35) :
    unescapeName (c :: t) = c :: unescapeName t := by
  match t with
  | [] => rfl
  | [x] => rfl
  | x :: y :: r => rw [unescapeName, if_neg h]

/-- The escape pass never emits a byte sequence that `unescapeName` reads
back differently: verbatim bytes are non-`#` and copied back, and every
`# h l` triple decodes to the escaped byte. -/
theorem unescapeName_escapeChars (l : List Nat) (h256 : ∀ b ∈ l, b < 256) :
    unescapeName (escapeChars l) = l := by
  induction l with
  | nil => rfl
  | cons b rest ih =>
    have hb : b < 256 := h256 b (List.mem_cons_self b rest)
    have hrest : ∀ x ∈ rest, x < 256 := fun x hx => h256 x (List.mem_cons_of_mem b hx)
    rw [escapeChars]
    by_cases hcond : (isRegular b && isPrintable b && decide (b ≠ 35)) = true
    · rw [if_pos hcond]
      have hb35 : b ≠ 35 := by
        have := (Bool.and_eq_true _ _).mp hcond
        exact of_decide_eq_true this.2
      rw [unescapeName_cons_of_ne b _ hb35, ih hrest]
    · rw [if_neg hcond, unescapeName, if_pos rfl, ih hrest]
      have hmod : b % 256 = b := Nat.mod_eq_of_lt hb
      rw [hmod]
      have h1 : b / 16 < 16 := by omega
      have h2 : b % 16 < 16 := Nat.mod_lt b (by norm_num)
      rw [recombine_hexDigit (b / 16) h1 (b % 16) h2]
      rw [Nat.div_add_mod b 16]

/-- The first pass of `escapeNameTo` fails exactly when the input holds a
null byte. -/
theorem escapeCount_eq_none_iff (l : List Nat) :
    escapeCount l = none ↔ 0 ∈ l := by
  induction l with
  | nil => simp [escapeCount]
  | cons b rest ih =>
    rw [escapeCount]
    by_cases hb : b = 0
    · subst hb; simp
    · rw [if_neg hb]
      cases hc : escapeCount rest with
      | none =>
        constructor
        · intro _
          exact List.mem_cons_of_mem b (ih.mp hc)
        · intro _
          rfl
      | some n =>
        simp only [List.mem_cons]
        constructor
        · intro h; exact absurd h (by simp)
        · intro h
          rcases h with h | h
          · exact absurd h.symm hb
          · rw [ih.mpr h] at hc
            exact absurd hc (by simp)

/-- The count computed by the first pass of `escapeNameTo` is exactly the
length of the output produced by the second pass. -/
theorem escapeChars_length (l : List Nat) (n : Nat)
    (h : escapeCount l = some n) : (escapeChars l).length = n := by
  induction l generalizing n with
  | nil =>
    rw [escapeCount] at h
    cases h
    rfl
  | cons b rest ih =>
    rw [escapeCount] at h
    by_cases hb : b = 0
    · rw [if_pos hb] at h; exact absurd h (by simp)
    · rw [if_neg hb] at h
      cases hc : escapeCount rest with
      | none => rw [hc] at h; exact absurd h (by simp)
      | some m =>
        rw [hc] at h
        have hn : (if isRegular b && isPrintable b && decide (b ≠ 35) then 1 else 3) + m = n := by
          cases h; rfl
        rw [escapeChars]
        by_cases hcond : (isRegular b && isPrintable b && decide (b ≠ 35)) = true
        · rw [if_pos hcond]
          rw [if_pos hcond] at hn
          simp [List.length_cons, ih m hc, hn]
          omega
        · rw [if_neg hcond]
          rw [if_neg hcond] at hn
          simp [List.length_cons, ih m hc]
          omega

/-- C1: for every byte sequence that contains no null byte, unescaping
the result of escaping it yields the original sequence:
`unescapeName (escapeNameTo bytes) = bytes`. -/
theorem escape_unescape_roundtrip (l : List Nat) (h256 : ∀ b ∈ l, b < 256)
    (h0 : 0 ∉ l) : (escapeNameTo l).map unescapeName = .ok l := by
  cases hc : escapeCount l with
  | none => exact absurd ((escapeCount_eq_none_iff l).mp hc) h0
  | some n =>
    rw [escapeNameTo, hc]
    show Except.ok (unescapeName (escapeChars l)) = Except.ok l
    rw [unescapeName_escapeChars l h256]

/-- Witness for C1 at the bytes `[65, 35, 200]`. -/
theorem escape_unescape_roundtrip_witness :
    (escapeNameTo [65, 35, 200]).map unescapeName = .ok [65, 35, 200] :=
  escape_unescape_roundtrip [65, 35, 200] (by decide) (by decide)

/-- C4: escaping a byte sequence containing a null byte fails with
`InvalidName`, and the null check lives in a first pass over the whole
input that also computes the exact output length, before any output is
produced: whenever the first pass succeeds with count `n`, the output is
generated and has length exactly `n`. -/
theorem escape_null_rejected_first_pass (l : List Nat) :
    (0 ∈ l → escapeNameTo l = .error .InvalidName) ∧
    (∀ n, escapeCount l = some n →
      escapeNameTo l = .ok (escapeChars l) ∧ (escapeChars l).length = n) := by
  constructor
  · intro h0
    rw [escapeNameTo, (escapeCount_eq_none_iff l).mpr h0]
  · intro n hn
    rw [escapeNameTo, hn]
    exact ⟨rfl, escapeChars_length l n hn⟩

/-- Witness for C4 at the bytes `[65, 0]` (null present) and `[65, 35]`
(first pass computes 4, matching the output length). -/
theorem escape_null_rejected_first_pass_witness :
    escapeNameTo [65, 0] = .error .InvalidName ∧
    (escapeNameTo [65, 35] = .ok (escapeChars [65, 35]) ∧
      (escapeChars [65, 35]).length = 4) :=
  ⟨(escape_null_rejected_first_pass [65, 0]).1 (by decide),
   (escape_null_rejected_first_pass [65, 35]).2 4 (by decide)⟩

/-- C5: a `#` encountered with fewer than two bytes remaining after it
is emitted as a literal `#`, not an error; in particular unescaping
`"AB#"` yields `"AB#"`. -/
theorem unescape_lenient_trailing_hash :
    (∀ rest : List Nat, rest.length < 2 →
      unescapeName (35 :: rest) = 35 :: unescapeName rest) ∧
    unescapeName [65, 66, 35] = [65, 66, 35] := by
  constructor
  · intro rest h
    match rest with
    | [] => rfl
    | [x] => rfl
    | x :: y :: r =>
      simp only [List.length_cons] at h
      omega
  · decide

/-- Witness for C5: a lone trailing byte after the `#`. -/
theorem unescape_lenient_trailing_hash_witness :
    unescapeName [35, 66] = 35 :: unescapeName [66] :=
  unescape_lenient_trailing_hash.1 [66] (by decide)

/-!
Lemmas about `PdfName` comparison.
-/

/-- The `std::string_view` comparison `viewLt` decides the mathematical
byte-wise lexicographic strict order on the underlying byte lists. -/
theorem viewLt_iff_lex (a b : List Nat) :
    PdfName.viewLt a b = true ↔ List.Lex (· < ·) a b := by
  induction a generalizing b with
  | nil =>
    cases b with
    | nil =>
      constructor
      · intro h; exact absurd h (by simp [PdfName.viewLt])
      · intro h; exact absurd h (List.Lex.not_nil_right _ _)
    | cons y ys =>
      constructor
      · intro _; exact List.Lex.nil
      · intro _; rfl
  | cons x xs ih =>
    cases b with
    | nil =>
      constructor
      · intro h; exact absurd h (by simp [PdfName.viewLt])
      · intro h; exact absurd h (List.Lex.not_nil_right _ _)
    | cons y ys =>
      rw [PdfName.viewLt]
      by_cases hxy : x < y
      · rw [if_pos hxy]
        exact iff_of_true rfl (List.Lex.rel hxy)
      · rw [if_neg hxy]
        by_cases hyx : y < x
        · rw [if_pos hyx]
          constructor
          · intro h; exact absurd h (by simp)
          · intro h
            cases h with
            | cons h => exact absurd hyx (lt_irrefl _)
            | rel h => exact absurd h hxy
        · rw [if_neg hyx]
          have heq : x = y := Nat.le_antisymm (Nat.not_lt.mp hyx) (Nat.not_lt.mp hxy)
          subst heq
          rw [ih ys]
          constructor
          · exact List.Lex.cons
          · intro h
            cases h with
            | cons h => exact h
            | rel h => exact absurd h hxy

/-- C3: equality and ordering of `PdfName` values compare the raw byte
views only, never the UTF-8 cache: names with equal raw bytes compare
equal whatever their cache states, and `operator<` is the byte-wise
lexicographic order on the raw bytes. -/
theorem name_compare_raw_bytes_only :
    (∀ a b : PdfName, a.m_dataView = b.m_dataView → PdfName.eqName a b = true) ∧
    (∀ (raw : List Nat) (c₁ c₂ : Option (List Nat)) (e₁ e₂ : Bool),
      PdfName.eqName ⟨some ⟨raw, c₁, e₁⟩, raw⟩ ⟨some ⟨raw, c₂, e₂⟩, raw⟩ = true) ∧
    (∀ a b : PdfName, PdfName.ltName a b = true ↔
      List.Lex (· < ·) a.m_dataView b.m_dataView) := by
  refine ⟨?_, ?_, ?_⟩
  · intro a b h
    simp [PdfName.eqName, h]
  · intro raw c₁ c₂ e₁ e₂
    simp [PdfName.eqName]
  · intro a b
    exact viewLt_iff_lex a.m_dataView b.m_dataView

/-- Witness for C3: a name built from UTF-8 text (populated display
cache) and a name built from the same raw bytes (no cache) compare
equal, and a strict byte-wise comparison instance. -/
theorem name_compare_raw_bytes_only_witness :
    PdfName.eqName ⟨some ⟨[200], some [195, 136], true⟩, [200]⟩
      (PdfName.FromRaw [200]) = true ∧
    (PdfName.ltName (PdfName.FromRaw [65, 66]) (PdfName.FromRaw [65, 67]) = true ↔
      List.Lex (· < ·) [65, 66] [65, 67]) :=
  ⟨name_compare_raw_bytes_only.1 _ _ rfl,
   name_compare_raw_bytes_only.2.2 (PdfName.FromRaw [65, 66]) (PdfName.FromRaw [65, 67])⟩

/-- C9: comparing a `PdfName` against a plain string via
`operator==(const string_view&)` compares the UTF-8 display text
(`GetString`), not the raw legacy-charset bytes: a non-ASCII-equal name
(one whose populated display cache differs from its raw bytes) equals
its original UTF-8 construction text and does not equal its raw byte
sequence. -/
theorem name_string_compare_uses_display_text (raw u : List Nat)
    (h : u ≠ raw) :
    PdfName.eqStringView ⟨some ⟨raw, some u, true⟩, raw⟩ u = true ∧
    PdfName.eqStringView ⟨some ⟨raw, some u, true⟩, raw⟩ raw = false := by
  constructor
  · simp [PdfName.eqStringView, PdfName.GetString, PdfName.expandUtf8String]
  · simp [PdfName.eqStringView, PdfName.GetString, PdfName.expandUtf8String]
    exact h

/-- Witness for C9: raw legacy bytes `[200]` with cached UTF-8 text
`[195, 136]`. -/
theorem name_string_compare_uses_display_text_witness :
    PdfName.eqStringView ⟨some ⟨[200], some [195, 136], true⟩, [200]⟩ [195, 136] = true ∧
    PdfName.eqStringView ⟨some ⟨[200], some [195, 136], true⟩, [200]⟩ [200] = false :=
  name_string_compare_uses_display_text [200] [195, 136] (by decide)

/-!
Lemmas about the resource table.
-/

/-- Any integer outside 1..7 falls to the `default` branch of the
category-to-tag `switch` and raises `InvalidEnumValue`. -/
theorem getResourceTypeName_invalid (t : Nat) (h : ¬(1 ≤ t ∧ t ≤ 7)) :
    getResourceTypeName t = .error .InvalidEnumValue := by
  match t with
  | 0 => rfl
  | 1 | 2 | 3 | 4 | 5 | 6 | 7 => exact absurd (by omega) h
  | n + 8 => rfl

/-- Any integer outside 1..7 falls to the `default` branch of the
category-to-prefix `switch` and raises `InvalidEnumValue`. -/
theorem getResourceTypePfx_invalid (t : Nat) (h : ¬(1 ≤ t ∧ t ≤ 7)) :
    getResourceTypePfx t = .error .InvalidEnumValue := by
  match t with
  | 0 => rfl
  | 1 | 2 | 3 | 4 | 5 | 6 | 7 => exact absurd (by omega) h
  | n + 8 => rfl

/-- The two category `switch` statements succeed on exactly the same
values: when the tag mapping returns a tag, the prefix mapping returns a
prefix. -/
theorem getResourceTypePfx_ok_of_name_ok (t : Nat) (tname : String)
    (h : getResourceTypeName t = .ok tname) :
    ∃ p, getResourceTypePfx t = .ok p := by
  match t with
  | 0 => exact absurd h (by simp [getResourceTypeName])
  | 1 | 2 | 3 | 4 | 5 | 6 | 7 => exact ⟨_, rfl⟩
  | n + 8 => exact absurd h (by simp [getResourceTypeName])

/-- The allocation loop only ever stops at a candidate that is not a key
of the sub-dictionary: a returned name is fresh at allocation time. -/
theorem allocLoop_fresh (dict : List (String × Nat)) (pre : String) :
    ∀ (fuel currId : Nat) (name : String) (cnt : Nat),
      PdfResources.allocLoop dict pre fuel currId = some (name, cnt) →
      hasKey dict name = false := by
  intro fuel
  induction fuel with
  | zero =>
    intro currId name cnt h
    exact absurd h (by simp [PdfResources.allocLoop])
  | succ n ih =>
    intro currId name cnt h
    rw [PdfResources.allocLoop] at h
    by_cases hk : hasKey dict (pre ++ Nat.repr currId) = true
    · rw [if_pos hk] at h
      exact ih (currId + 1) name cnt h
    · rw [if_neg hk] at h
      injection h with h'
      injection h' with h1 h2
      rw [← h1]
      exact Bool.eq_false_iff.mpr hk

/-- The counter value returned by the allocation loop never decreases
below its starting value. -/
theorem allocLoop_mono (dict : List (String × Nat)) (pre : String) :
    ∀ (fuel currId : Nat) (name : String) (cnt : Nat),
      PdfResources.allocLoop dict pre fuel currId = some (name, cnt) →
      currId ≤ cnt := by
  intro fuel
  induction fuel with
  | zero =>
    intro currId name cnt h
    exact absurd h (by simp [PdfResources.allocLoop])
  | succ n ih =>
    intro currId name cnt h
    rw [PdfResources.allocLoop] at h
    by_cases hk : hasKey dict (pre ++ Nat.repr currId) = true
    · rw [if_pos hk] at h
      exact Nat.le_of_succ_le (ih (currId + 1) name cnt h)
    · rw [if_neg hk] at h
      injection h with h'
      injection h' with h1 h2
      omega

/-- Writing back the value already stored at an index leaves the list
unchanged (the allocation loop writes the unchanged counter back when
the first candidate is free). -/
theorem set_getD_self : ∀ (l : List Nat) (i : Nat), l.set i (l.getD i 0) = l
  | [], _ => rfl
  | _ :: _, 0 => by simp
  | a :: as, i + 1 => by
    simp only [List.getD_cons_succ, List.set_cons_succ]
    rw [set_getD_self as i]

/-- Overwriting one entry with a value at least as large never decreases
any entry of the list (entries read via `getD` with default 0). -/
theorem getD_le_set_getD (l : List Nat) (i v : Nat) (hv : l.getD i 0 ≤ v) :
    ∀ j, l.getD j 0 ≤ (l.set i v).getD j 0 := by
  induction l generalizing i with
  | nil =>
    intro j
    simp [List.set]
  | cons a as ih =>
    intro j
    cases i with
    | zero =>
      cases j with
      | zero => simpa using hv
      | succ jj => simp
    | succ ii =>
      cases j with
      | zero => simp
      | succ jj =>
        simp only [List.getD_cons_succ, List.set_cons_succ]
        exact ih ii (by simpa using hv) jj

/-- C2: a name returned by a successful `AddResource(type, obj)` is never
a key already present in that category's sub-dictionary at the moment of
allocation; in particular with key `"Ft3"` manually inserted in the
`Font` sub-dictionary and the `Font` counter at 3, the next call returns
`"Ft4"`, never `"Ft3"`. -/
theorem addResource_returns_fresh_key :
    (∀ (st : PdfResources) (type obj : Nat) (name : String) (st' : PdfResources)
      (tname : String),
      PdfResources.AddResource st type obj = (.ok name, st') →
      getResourceTypeName type = .ok tname →
      hasKey (st.subDict tname) name = false) ∧
    (PdfResources.AddResource ⟨[("Font", [("Ft3", 99)])], [0, 0, 0, 0, 0, 3, 0]⟩ 6 42).1
      = .ok "Ft4" := by
  constructor
  · intro st type obj name st' tname h ht
    obtain ⟨pre, hpre⟩ := getResourceTypePfx_ok_of_name_ok type tname ht
    simp only [PdfResources.AddResource, ht, hpre] at h
    cases halloc : PdfResources.allocLoop (st.subDict tname) pre
        ((st.subDict tname).length + 1) (st.m_currResourceIds.getD (type - 1) 0) with
    | none =>
      rw [halloc] at h
      exact absurd h (by simp)
    | some p =>
      obtain ⟨n₀, c₀⟩ := p
      rw [halloc] at h
      simp only [Prod.mk.injEq, Except.ok.injEq] at h
      rw [← h.1]
      exact allocLoop_fresh (st.subDict tname) pre _ _ n₀ c₀ halloc
  · decide

/-- Witness for C2: the `"Ft3"` scenario, with the freshness conclusion
instantiated at the state that already binds `"Ft3"`. -/
theorem addResource_returns_fresh_key_witness :
    hasKey ((⟨[("Font", [("Ft3", 99)])], [0, 0, 0, 0, 0, 3, 0]⟩ : PdfResources).subDict "Font")
      "Ft4" = false :=
  addResource_returns_fresh_key.1
    ⟨[("Font", [("Ft3", 99)])], [0, 0, 0, 0, 0, 3, 0]⟩ 6 42 "Ft4"
    ⟨[("Font", [("Ft3", 99), ("Ft4", 42)])], [0, 0, 0, 0, 0, 4, 0]⟩ "Font"
    (by decide) (by decide)

/-- C6: on a fresh resource table (`XObject` sub-dictionary absent,
counter zero), `AddResource(XObject, obj)` returns `"XOb0"`, and a
second call on the resulting table returns `"XOb1"`. -/
theorem addResource_xobject_first_names :
    (PdfResources.AddResource PdfResources.init 5 10).1 = .ok "XOb0" ∧
    (PdfResources.AddResource
      (PdfResources.AddResource PdfResources.init 5 10).2 5 11).1 = .ok "XOb1" := by
  constructor
  · decide
  · decide

/-- C7: every category value outside the closed enumeration 1..7 makes
both the category-to-tag mapping and the category-to-prefix mapping
raise `InvalidEnumValue` rather than defaulting. -/
theorem resource_type_mappings_reject_invalid (t : Nat) (h : ¬(1 ≤ t ∧ t ≤ 7)) :
    getResourceTypeName t = .error .InvalidEnumValue ∧
    getResourceTypePfx t = .error .InvalidEnumValue :=
  ⟨getResourceTypeName_invalid t h, getResourceTypePfx_invalid t h⟩

/-- Witness for C7 at the out-of-range category 8. -/
theorem resource_type_mappings_reject_invalid_witness :
    getResourceTypeName 8 = .error .InvalidEnumValue ∧
    getResourceTypePfx 8 = .error .InvalidEnumValue :=
  resource_type_mappings_reject_invalid 8 (by omega)

/-- C8: every per-category counter starts at zero; a successful
`AddResource` never decreases any counter, and leaves all counters
unchanged when its first candidate key is free (the counter is mutated
only on collision); `RemoveResource` and `RemoveResources` leave every
counter unchanged. -/
theorem counters_zero_monotone_removal_frame :
    PdfResources.init.m_currResourceIds = List.replicate 7 0 ∧
    (∀ (st : PdfResources) (t : Nat) (k : String),
      ((PdfResources.RemoveResource st t k).2).m_currResourceIds = st.m_currResourceIds) ∧
    (∀ (st : PdfResources) (t : Nat),
      ((PdfResources.RemoveResources st t).2).m_currResourceIds = st.m_currResourceIds) ∧
    (∀ (st : PdfResources) (t obj : Nat) (name : String) (st' : PdfResources),
      PdfResources.AddResource st t obj = (.ok name, st') →
      (∀ i, st.m_currResourceIds.getD i 0 ≤ st'.m_currResourceIds.getD i 0) ∧
      (∀ (tname pre : String), getResourceTypeName t = .ok tname →
        getResourceTypePfx t = .ok pre →
        hasKey (st.subDict tname)
          (pre ++ Nat.repr (st.m_currResourceIds.getD (t - 1) 0)) = false →
        st'.m_currResourceIds = st.m_currResourceIds)) := by
  refine ⟨rfl, ?_, ?_, ?_⟩
  · intro st t k
    unfold PdfResources.RemoveResource
    split
    · rfl
    · split
      · rfl
      · rfl
  · intro st t
    unfold PdfResources.RemoveResources
    split
    · rfl
    · rfl
  · intro st t obj name st' h
    cases ht : getResourceTypeName t with
    | error e =>
      simp only [PdfResources.AddResource, ht] at h
      exact absurd h (by simp)
    | ok tname =>
      obtain ⟨pre, hpre⟩ := getResourceTypePfx_ok_of_name_ok t tname ht
      simp only [PdfResources.AddResource, ht, hpre] at h
      cases halloc : PdfResources.allocLoop (st.subDict tname) pre
          ((st.subDict tname).length + 1) (st.m_currResourceIds.getD (t - 1) 0) with
      | none =>
        rw [halloc] at h
        exact absurd h (by simp)
      | some p =>
        obtain ⟨n₀, c₀⟩ := p
        rw [halloc] at h
        simp only [Prod.mk.injEq, Except.ok.injEq] at h
        have hst' : st' = ⟨addOrReplace st.dict tname (addOrReplace (st.subDict tname) n₀ obj),
            st.m_currResourceIds.set (t - 1) c₀⟩ := h.2.symm
        constructor
        · intro i
          rw [hst']
          exact getD_le_set_getD st.m_currResourceIds (t - 1) c₀
            (allocLoop_mono (st.subDict tname) pre _ _ n₀ c₀ halloc) i
        · intro tname' pre' ht' hpre' hfree
          have htn : tname' = tname := (Except.ok.inj ht').symm
          have hpn : pre' = pre := by
            rw [hpre] at hpre'
            exact (Except.ok.inj hpre').symm
          subst htn
          subst hpn
          rw [PdfResources.allocLoop, if_neg (by rw [hfree]; simp)] at halloc
          injection halloc with h'
          injection h' with h1 h2
          rw [hst']
          show st.m_currResourceIds.set (t - 1) c₀ = st.m_currResourceIds
          rw [← h2]
          exact set_getD_self st.m_currResourceIds (t - 1)

/-- Witness for C8: the initial state, a removal on it, and the
no-collision `AddResource` of C6, instantiated concretely. -/
theorem counters_zero_monotone_removal_frame_witness :
    ((PdfResources.RemoveResource PdfResources.init 6 "F1").2).m_currResourceIds
      = PdfResources.init.m_currResourceIds ∧
    ((PdfResources.AddResource PdfResources.init 5 10).2).m_currResourceIds
      = PdfResources.init.m_currResourceIds :=
  ⟨counters_zero_monotone_removal_frame.2.1 PdfResources.init 6 "F1",
   (counters_zero_monotone_removal_frame.2.2.2 PdfResources.init 5 10 "XOb0"
      (PdfResources.AddResource PdfResources.init 5 10).2 (by decide)).2
      "XObject" "XOb" (by decide) (by decide) (by decide)⟩

/-- C10: calling `AddResource` with a category value outside the closed
enumeration raises `InvalidEnumValue` before any state is modified: the
returned state is exactly the input state (no sub-dictionary created, no
key added, every counter unchanged). -/
theorem addResource_invalid_enum_state_unchanged (st : PdfResources)
    (t obj : Nat) (h : ¬(1 ≤ t ∧ t ≤ 7)) :
    PdfResources.AddResource st t obj = (.error .InvalidEnumValue, st) := by
  unfold PdfResources.AddResource
  rw [getResourceTypeName_invalid t h]

/-- Witness for C10 at category 8 on a non-trivial state. -/
theorem addResource_invalid_enum_state_unchanged_witness :
    PdfResources.AddResource ⟨[("Font", [("Ft0", 7)])], [0, 0, 0, 0, 0, 1, 0]⟩ 8 42
      = (.error .InvalidEnumValue, ⟨[("Font", [("Ft0", 7)])], [0, 0, 0, 0, 0, 1, 0]⟩) :=
  addResource_invalid_enum_state_unchanged
    ⟨[("Font", [("Ft0", 7)])], [0, 0, 0, 0, 0, 1, 0]⟩ 8 42 (by omega)

